import Mathlib

/-!
Shallow embedding of the gzip header decoder from src/main.rs.

The byte stream is modelled as a `List Nat` of bytes consumed from the
front; reaching the end of the list is the only way a read can fail,
matching end-of-stream on a real reader.  Errors are the `String` values
the source returns: the `Result<_, String>` of the source becomes
`Except String _`.  A read failure inside `handle_fextra`,
`read_c_utf8_str` or the header-CRC read propagates the description of
the I/O error (`e.description()`), which for end-of-stream is the string
`"end of file"`; the fixed-prefix block collapses any read failure to
`"malformed gzip header"`.
-/

namespace Gunz

/-- Description string of an end-of-stream I/O error (`e.description()`). -/
def eofDesc : String := "end of file"

/-- `static FTEXT : u8 = 0b00000001;` -/
def FTEXT : Nat := 0b00000001

/-- `static FHCRC : u8 = 0b00000010;` -/
def FHCRC : Nat := 0b00000010

/-- `static FEXTRA : u8 = 0b00000100;` -/
def FEXTRA : Nat := 0b00000100

/-- `static FNAME : u8 = 0b00001000;` -/
def FNAME : Nat := 0b00001000

/-- `static FCOMMENT : u8 = 0b00010000;` -/
def FCOMMENT : Nat := 0b00010000

/-- The `GzipHeader` struct of the source. -/
structure GzipHeader where
  method : Nat
  flg : Nat
  mtime : Nat
  xfl : Nat
  os : Nat
  fextra_count : Nat
  fname : Option String
  fcomment : Option String
  fhcrc : Option Nat
  deriving Repr, DecidableEq

/-- `Reader::read_byte`: one byte from the front, or an end-of-stream
error.  Returns the read result together with the rest of the stream. -/
def read_byteR : List Nat → Except String Nat × List Nat
  | [] => (.error eofDesc, [])
  | b :: rest => (.ok b, rest)

/-- `Reader::read_le_u16`: two bytes, little-endian. -/
def read_le_u16R (s : List Nat) : Except String Nat × List Nat :=
  match read_byteR s with
  | (.error e, s1) => (.error e, s1)
  | (.ok b0, s1) =>
    match read_byteR s1 with
    | (.error e, s2) => (.error e, s2)
    | (.ok b1, s2) => (.ok (b0 + 256 * b1), s2)

/-- `Reader::read_le_u32`: four bytes, little-endian. -/
def read_le_u32R (s : List Nat) : Except String Nat × List Nat :=
  match read_byteR s with
  | (.error e, s1) => (.error e, s1)
  | (.ok b0, s1) =>
    match read_byteR s1 with
    | (.error e, s2) => (.error e, s2)
    | (.ok b1, s2) =>
      match read_byteR s2 with
      | (.error e, s3) => (.error e, s3)
      | (.ok b2, s3) =>
        match read_byteR s3 with
        | (.error e, s4) => (.error e, s4)
        | (.ok b3, s4) =>
          (.ok (b0 + 256 * b1 + 65536 * b2 + 16777216 * b3), s4)

/-- `Reader::read_exact(n)`: exactly `n` bytes, or an end-of-stream
error if fewer are available.  Returns the bytes read and the rest. -/
def read_exact (n : Nat) (s : List Nat) : Except String (List Nat × List Nat) :=
  if n ≤ s.length then .ok (s.take n, s.drop n) else .error eofDesc

/-- The `while xlen > 0` loop of `handle_fextra`, with the running
`xlen` budget and subfield counter as parameters. -/
def fextraLoop (xlen count : Nat) (s : List Nat) : Except String (Nat × List Nat) :=
  if _h0 : xlen = 0 then .ok (count, s)
  else if xlen < 4 then .error "malformed FEXTRA"
  else
    -- two bytes for subfield id
    match read_byteR s with
    | (.error e, _) => .error e
    | (.ok _, s1) =>
      match read_byteR s1 with
      | (.error e, _) => .error e
      | (.ok _, s2) =>
        match read_le_u16R s2 with
        | (.error e, _) => .error e
        | (.ok len, s3) =>
          -- xlen = xlen - 4; if xlen < len return malformed
          if xlen - 4 < len then .error "malformed FEXTRA"
          else
            -- subfield itself
            match read_exact len s3 with
            | .error e => .error e
            | .ok (_, s4) => fextraLoop (xlen - 4 - len) (count + 1) s4
termination_by xlen
decreasing_by omega

/-- `GzipReader::handle_fextra`: read the 16-bit `xlen`, then consume
the subfield list, returning the number of subfields parsed. -/
def handle_fextra (s : List Nat) : Except String (Nat × List Nat) :=
  match read_le_u16R s with
  | (.error e, _) => .error e
  | (.ok xlen, s1) => fextraLoop xlen 0 s1

/-- Is `b` a UTF-8 continuation byte (`0x80 ..= 0xBF`)? -/
def isCont (b : Nat) : Bool := 0x80 ≤ b && b ≤ 0xBF

/-- UTF-8 decoding as validated by `String::from_utf8`: rejects
overlong encodings, surrogates and code points above U+10FFFF. -/
def utf8Decode : List Nat → Option (List Char)
  | [] => some []
  | b :: rest =>
    if b ≤ 0x7F then
      (utf8Decode rest).map (fun cs => Char.ofNat b :: cs)
    else if b < 0xC2 then none
    else if b ≤ 0xDF then
      match rest with
      | b1 :: rest1 =>
        if isCont b1 then
          (utf8Decode rest1).map
            (fun cs => Char.ofNat ((b - 0xC0) * 0x40 + (b1 - 0x80)) :: cs)
        else none
      | _ => none
    else if b ≤ 0xEF then
      match rest with
      | b1 :: b2 :: rest2 =>
        if (if b = 0xE0 then 0xA0 ≤ b1 && b1 ≤ 0xBF
            else if b = 0xED then 0x80 ≤ b1 && b1 ≤ 0x9F
            else isCont b1) && isCont b2 then
          (utf8Decode rest2).map
            (fun cs =>
              Char.ofNat ((b - 0xE0) * 0x1000 + (b1 - 0x80) * 0x40 + (b2 - 0x80)) :: cs)
        else none
      | _ => none
    else if b ≤ 0xF4 then
      match rest with
      | b1 :: b2 :: b3 :: rest3 =>
        if (if b = 0xF0 then 0x90 ≤ b1 && b1 ≤ 0xBF
            else if b = 0xF4 then 0x80 ≤ b1 && b1 ≤ 0x8F
            else isCont b1) && isCont b2 && isCont b3 then
          (utf8Decode rest3).map
            (fun cs =>
              Char.ofNat ((b - 0xF0) * 0x40000 + (b1 - 0x80) * 0x1000 +
                (b2 - 0x80) * 0x40 + (b3 - 0x80)) :: cs)
        else none
      | _ => none
    else none

/-- The byte-collection loop of `read_c_utf8_str`: push bytes until a
zero byte is read (the terminator is consumed but not appended); a read
failure is an end-of-stream error. -/
def read_c_bytes : List Nat → Except String (List Nat × List Nat)
  | [] => .error eofDesc
  | 0 :: rest => .ok ([], rest)
  | b :: rest =>
    match read_c_bytes rest with
    | .error e => .error e
    | .ok (bs, r) => .ok (b :: bs, r)

/-- `read_c_utf8_str`: collect bytes up to the null terminator, then
validate them as UTF-8 (`String::from_utf8`). -/
def read_c_utf8_str (s : List Nat) : Except String (String × List Nat) :=
  match read_c_bytes s with
  | .error e => .error e
  | .ok (bs, rest) =>
    match utf8Decode bs with
    | some cs => .ok (String.mk cs, rest)
    | none => .error "expected utf8 string"

/-- `GzipReader::read_gzip_header`.  The source issues the seven
fixed-prefix reads and then tests `is_err()` on each, returning the
single string `"malformed gzip header"` if any failed; on the list
stream this is observably the sequential short-circuit below, every
failing arm returning that same string.  Magic validation follows, then
the flag-driven optional sections in source order. -/
def read_gzip_header (s : List Nat) : Except String (GzipHeader × List Nat) :=
  match read_byteR s with
  | (.error _, _) => .error "malformed gzip header"
  | (.ok m1, s1) =>
  match read_byteR s1 with
  | (.error _, _) => .error "malformed gzip header"
  | (.ok m2, s2) =>
  match read_byteR s2 with
  | (.error _, _) => .error "malformed gzip header"
  | (.ok method, s3) =>
  match read_byteR s3 with
  | (.error _, _) => .error "malformed gzip header"
  | (.ok flg, s4) =>
  match read_le_u32R s4 with
  | (.error _, _) => .error "malformed gzip header"
  | (.ok mtime, s5) =>
  match read_byteR s5 with
  | (.error _, _) => .error "malformed gzip header"
  | (.ok xfl, s6) =>
  match read_byteR s6 with
  | (.error _, _) => .error "malformed gzip header"
  | (.ok os, s7) =>
  if m1 != 0x1f || m2 != 0x8b then .error "magic mismatch"
  else
    -- if flg & FTEXT != 0 { /* FTEXT set. */ }
    match (if flg &&& FEXTRA != 0 then handle_fextra s7 else .ok (0, s7)) with
    | .error e => .error e
    | .ok (fextra_count, s8) =>
    match (if flg &&& FNAME != 0 then
             match read_c_utf8_str s8 with
             | .error e => .error e
             | .ok (str, r) => .ok (some str, r)
           else .ok (none, s8) : Except String (Option String × List Nat)) with
    | .error e => .error e
    | .ok (fname, s9) =>
    match (if flg &&& FCOMMENT != 0 then
             match read_c_utf8_str s9 with
             | .error e => .error e
             | .ok (str, r) => .ok (some str, r)
           else .ok (none, s9) : Except String (Option String × List Nat)) with
    | .error e => .error e
    | .ok (fcomment, s10) =>
    match (if flg &&& FHCRC != 0 then
             match read_le_u16R s10 with
             | (.error e, _) => .error e
             | (.ok v, r) => .ok (some v, r)
           else .ok (none, s10) : Except String (Option Nat × List Nat)) with
    | .error e => .error e
    | .ok (fhcrc, s11) =>
    .ok ({ method := method, flg := flg, mtime := mtime, xfl := xfl, os := os,
           fextra_count := fextra_count, fname := fname, fcomment := fcomment,
           fhcrc := fhcrc }, s11)

/-- Fuel-bounded variant of `fextraLoop`, structurally recursive on the
fuel; `none` means the fuel ran out.  Used to exhibit termination of the
subfield loop within an explicit iteration bound. -/
def fextraLoopFuel : Nat → Nat → Nat → List Nat → Option (Except String (Nat × List Nat))
  | 0, _, _, _ => none
  | fuel + 1, xlen, count, s =>
    if xlen = 0 then some (.ok (count, s))
    else if xlen < 4 then some (.error "malformed FEXTRA")
    else
      match read_byteR s with
      | (.error e, _) => some (.error e)
      | (.ok _, s1) =>
        match read_byteR s1 with
        | (.error e, _) => some (.error e)
        | (.ok _, s2) =>
          match read_le_u16R s2 with
          | (.error e, _) => some (.error e)
          | (.ok len, s3) =>
            if xlen - 4 < len then some (.error "malformed FEXTRA")
            else
              match read_exact len s3 with
              | .error e => some (.error e)
              | .ok (_, s4) => fextraLoopFuel fuel (xlen - 4 - len) (count + 1) s4

/-- Spec-side description of when the FEXTRA subfield list is reported
as `MalformedExtra`, written from the specification wording: following the
successfully parsed subfields, either (a) at the top of an iteration
the remaining budget satisfies `0 < xlen < 4`, or (b) after the 2-byte
tag and 2-byte little-endian `sublen` are consumed and the budget
decremented by 4, `sublen` exceeds the remaining budget.  A read that
runs off the end of the stream is not a malformed-extra cause. -/
def fextraMalformedCause (xlen : Nat) (s : List Nat) : Bool :=
  if _h0 : xlen = 0 then false
  else if xlen < 4 then true
  else
    match s with
    | _t1 :: _t2 :: l1 :: l2 :: rest =>
      let sublen := l1 + 256 * l2
      if xlen - 4 < sublen then true
      else if sublen ≤ rest.length then
        fextraMalformedCause (xlen - 4 - sublen) (rest.drop sublen)
      else false
    | _ => false
termination_by xlen
decreasing_by omega

/-- The specification kind `TruncatedHeader`: errors arising from a failed
underlying read (fixed-prefix block failure, or a propagated
end-of-stream description elsewhere). -/
def isTruncatedHeader (e : String) : Bool :=
  e == "malformed gzip header" || e == eofDesc

/-- The specification kind `MagicMismatch`. -/
def isMagicMismatch (e : String) : Bool := e == "magic mismatch"

/-- The specification kind `MalformedExtra`. -/
def isMalformedExtra (e : String) : Bool := e == "malformed FEXTRA"

/-- The specification kind `InvalidText`. -/
def isInvalidText (e : String) : Bool := e == "expected utf8 string"

lemma read_byteR_error_eq {s : List Nat} {e : String} {r : List Nat}
    (h : read_byteR s = (.error e, r)) : e = eofDesc := by
  cases s
  · simp [read_byteR] at h
    tauto
  · simp [read_byteR] at h

lemma read_le_u16R_error_eq {s : List Nat} {e : String} {r : List Nat}
    (h : read_le_u16R s = (.error e, r)) : e = eofDesc := by
  rcases s with _ | ⟨a, _ | ⟨b, s⟩⟩ <;>
    simp [read_le_u16R, read_byteR] at h <;> tauto

lemma read_exact_error_eq {n : Nat} {s : List Nat} {e : String}
    (h : read_exact n s = .error e) : e = eofDesc := by
  unfold read_exact at h
  split at h <;> simp_all

lemma read_c_bytes_error_eq : ∀ {s : List Nat} {e : String},
    read_c_bytes s = .error e → e = eofDesc := by
  intro s
  induction s with
  | nil => intro e h; simp [read_c_bytes] at h; tauto
  | cons b t ih =>
    intro e h
    match b with
    | 0 => simp [read_c_bytes] at h
    | b + 1 =>
      simp only [read_c_bytes] at h
      cases hrec : read_c_bytes t with
      | error e2 => rw [hrec] at h; simp at h; exact h ▸ ih hrec
      | ok p => rw [hrec] at h; simp at h

lemma read_gzip_header_short : ∀ {s : List Nat}, s.length < 10 →
    read_gzip_header s = .error "malformed gzip header" := by
  intro s h
  rcases s with _ | ⟨b1, s⟩; · rfl
  rcases s with _ | ⟨b2, s⟩; · rfl
  rcases s with _ | ⟨b3, s⟩; · rfl
  rcases s with _ | ⟨b4, s⟩; · rfl
  rcases s with _ | ⟨b5, s⟩; · rfl
  rcases s with _ | ⟨b6, s⟩; · rfl
  rcases s with _ | ⟨b7, s⟩; · rfl
  rcases s with _ | ⟨b8, s⟩; · rfl
  rcases s with _ | ⟨b9, s⟩; · rfl
  rcases s with _ | ⟨b10, s⟩; · rfl
  simp at h; omega

lemma read_gzip_header_magic {b1 b2 b3 b4 b5 b6 b7 b8 b9 b10 : Nat}
    (rest : List Nat) (h : ¬(b1 = 0x1f ∧ b2 = 0x8b)) :
    read_gzip_header (b1 :: b2 :: b3 :: b4 :: b5 :: b6 :: b7 :: b8 :: b9 :: b10 :: rest) =
      .error "magic mismatch" := by
  have hb : (b1 != 0x1f || b2 != 0x8b) = true := by
    simp only [Bool.or_eq_true, bne_iff_ne, ne_eq]
    tauto
  simp [read_gzip_header, read_byteR, read_le_u32R, hb]

/-- C9: decoding the concrete stream
1F 8B 08 08 00 00 00 00 00 03 61 2E 74 78 74 00 succeeds with
method=8, flg=0x08, mtime=0, xfl=0, os=3, fname=some "a.txt",
fcomment=none, fhcrc=none, fextra_count=0, consuming the whole
stream. -/
theorem C9_end_to_end :
    read_gzip_header [0x1f, 0x8b, 0x08, 0x08, 0x00, 0x00, 0x00, 0x00, 0x00, 0x03,
      0x61, 0x2e, 0x74, 0x78, 0x74, 0x00] =
      .ok ({ method := 8, flg := 0x08, mtime := 0, xfl := 0, os := 3,
             fextra_count := 0, fname := some "a.txt", fcomment := none,
             fhcrc := none }, []) := by
  rfl

/-- C1 counterexample: the stream [0x00, 0x00] has two bytes and they
are not the gzip magic, yet decode fails with the truncated-header
error, not magic-mismatch: the source performs all seven fixed-prefix
reads before checking the magic. -/
theorem C1_counterexample :
    read_gzip_header [0x00, 0x00] = .error "malformed gzip header" ∧
      isMagicMismatch "malformed gzip header" = false ∧
      isTruncatedHeader "malformed gzip header" = true := by
  exact ⟨rfl, rfl, rfl⟩

/-- C1 (amended): if the stream holds at least the 10 fixed-prefix
bytes and the first two are not 0x1F 0x8B, decode fails with
MagicMismatch; if the stream holds fewer than 10 bytes (in particular
fewer than 2), decode fails with TruncatedHeader regardless of its
contents. -/
theorem C1_magic_vs_truncated :
    (∀ b1 b2 b3 b4 b5 b6 b7 b8 b9 b10 : Nat, ∀ rest : List Nat,
      ¬(b1 = 0x1f ∧ b2 = 0x8b) →
      read_gzip_header (b1 :: b2 :: b3 :: b4 :: b5 :: b6 :: b7 :: b8 :: b9 :: b10 :: rest) =
        .error "magic mismatch") ∧
    (∀ s : List Nat, s.length < 10 →
      read_gzip_header s = .error "malformed gzip header") := by
  exact ⟨fun _ _ _ _ _ _ _ _ _ _ rest h => read_gzip_header_magic rest h,
         fun _ h => read_gzip_header_short h⟩

/-- Witness for C1: at ten zero bytes the decoder reports the magic
mismatch, and at the empty stream it reports the truncated header. -/
theorem C1_magic_vs_truncated_witness :
    read_gzip_header [0, 0, 0, 0, 0, 0, 0, 0, 0, 0] = .error "magic mismatch" ∧
      read_gzip_header [] = .error "malformed gzip header" :=
  ⟨C1_magic_vs_truncated.1 0 0 0 0 0 0 0 0 0 0 [] (by decide),
   C1_magic_vs_truncated.2 [] (by decide)⟩

lemma fextraLoop_error_classify :
    ∀ xlen c s e, fextraLoop xlen c s = .error e →
      e = "malformed FEXTRA" ∨ e = eofDesc := by
  intro xlen
  induction xlen using Nat.strong_induction_on with
  | _ xlen ih =>
    intro c s e h
    unfold fextraLoop at h
    split at h
    · simp at h
    split at h
    · simp at h
      exact Or.inl h.symm
    split at h
    case _ heq =>
      simp at h
      exact Or.inr (h ▸ read_byteR_error_eq heq)
    split at h
    case _ heq =>
      simp at h
      exact Or.inr (h ▸ read_byteR_error_eq heq)
    split at h
    case _ heq =>
      simp at h
      exact Or.inr (h ▸ read_le_u16R_error_eq heq)
    split at h
    · simp at h
      exact Or.inl h.symm
    split at h
    case _ heq =>
      simp at h
      exact Or.inr (h ▸ read_exact_error_eq heq)
    case _ heq =>
      rename_i hx0 hx4 _ _ _ _
      exact ih _ (by omega) _ _ _ h

/-- C3: a stream with the correct magic whose flags byte has none of
FHCRC, FEXTRA, FNAME, FCOMMENT set decodes to a header whose bytes are
taken verbatim, with mtime little-endian, no optional sections, and
exactly the 10 prefix bytes consumed. -/
theorem C3_no_optional_sections :
    ∀ method flg m0 m1 m2 m3 xfl os : Nat, ∀ rest : List Nat,
      flg &&& FHCRC = 0 → flg &&& FEXTRA = 0 → flg &&& FNAME = 0 →
      flg &&& FCOMMENT = 0 →
      read_gzip_header (0x1f :: 0x8b :: method :: flg :: m0 :: m1 :: m2 :: m3 :: xfl :: os :: rest) =
        .ok ({ method := method, flg := flg,
               mtime := m0 + 256 * m1 + 65536 * m2 + 16777216 * m3,
               xfl := xfl, os := os, fextra_count := 0, fname := none,
               fcomment := none, fhcrc := none }, rest) := by
  intro method flg m0 m1 m2 m3 xfl os rest hc he hn hm
  simp [read_gzip_header, read_byteR, read_le_u32R, hc, he, hn, hm]

/-- Witness for C3: a concrete 11-byte stream with flags = FTEXT only
decodes to the expected header, leaving the trailing byte. -/
theorem C3_no_optional_sections_witness :
    read_gzip_header [0x1f, 0x8b, 8, 1, 9, 0, 0, 0, 2, 3, 42] =
      .ok ({ method := 8, flg := 1, mtime := 9, xfl := 2, os := 3,
             fextra_count := 0, fname := none, fcomment := none,
             fhcrc := none }, [42]) := by
  have h := C3_no_optional_sections 8 1 9 0 0 0 2 3 [42]
    (by decide) (by decide) (by decide) (by decide)
  simpa using h

/-- C6: a FEXTRA list declaring xlen=4 followed by any 2-byte tag and
sublen=0 parses as exactly one subfield, consuming exactly the 2 xlen
bytes plus the 4 tag/length bytes; a sublen equal to the remaining
budget is accepted. -/
theorem C6_sublen_zero_boundary :
    (∀ t1 t2 : Nat, ∀ rest : List Nat,
      handle_fextra (4 :: 0 :: t1 :: t2 :: 0 :: 0 :: rest) = .ok (1, rest)) ∧
    read_gzip_header [0x1f, 0x8b, 8, 0x04, 0, 0, 0, 0, 0, 3, 4, 0, 0x41, 0x42, 0, 0, 99] =
      .ok ({ method := 8, flg := 4, mtime := 0, xfl := 0, os := 3,
             fextra_count := 1, fname := none, fcomment := none,
             fhcrc := none }, [99]) := by
  constructor
  · intro t1 t2 rest
    simp [handle_fextra, read_le_u16R, read_byteR, fextraLoop, read_exact]
  · simp [read_gzip_header, read_byteR, read_le_u32R, handle_fextra,
      read_le_u16R, fextraLoop, read_exact, FEXTRA, FNAME, FCOMMENT, FHCRC,
      (by decide : (4:Nat) &&& 4 = 4), (by decide : (4:Nat) &&& 8 = 0),
      (by decide : (4:Nat) &&& 16 = 0), (by decide : (4:Nat) &&& 2 = 0)]

/-- C10: a FEXTRA list declaring xlen=0 parses as zero subfields,
consuming only the two xlen bytes; hence extra_subfield_count = 0 does
not imply the FEXTRA bit was clear. -/
theorem C10_xlen_zero :
    (∀ rest : List Nat, handle_fextra (0 :: 0 :: rest) = .ok (0, rest)) ∧
    read_gzip_header [0x1f, 0x8b, 8, 0x04, 0, 0, 0, 0, 0, 3, 0, 0, 77] =
      .ok ({ method := 8, flg := 4, mtime := 0, xfl := 0, os := 3,
             fextra_count := 0, fname := none, fcomment := none,
             fhcrc := none }, [77]) ∧
    (0x04 &&& FEXTRA != 0) = true := by
  refine ⟨?_, ?_, by decide⟩
  · intro rest
    simp [handle_fextra, read_le_u16R, read_byteR, fextraLoop]
  · simp [read_gzip_header, read_byteR, read_le_u32R, handle_fextra,
      read_le_u16R, fextraLoop, FEXTRA, FNAME, FCOMMENT, FHCRC,
      (by decide : (4:Nat) &&& 4 = 4), (by decide : (4:Nat) &&& 8 = 0),
      (by decide : (4:Nat) &&& 16 = 0), (by decide : (4:Nat) &&& 2 = 0)]

/-- C2: every failed underlying read is reported as the truncated
kind: a fixed prefix shorter than 10 bytes yields the single string
"malformed gzip header" regardless of which of the seven reads failed;
errors of the FEXTRA section are either the structural MalformedExtra
or the end-of-stream description; the byte loop of a name/comment
field and the 16-bit header-CRC read fail only with the end-of-stream
description; and both failure strings classify as TruncatedHeader. -/
theorem C2_read_failures_truncated :
    (∀ s : List Nat, s.length < 10 →
      read_gzip_header s = .error "malformed gzip header") ∧
    (∀ s : List Nat, ∀ e : String, handle_fextra s = .error e →
      isMalformedExtra e = true ∨ e = eofDesc) ∧
    (∀ s : List Nat, ∀ e : String, read_c_bytes s = .error e → e = eofDesc) ∧
    (∀ s : List Nat, ∀ e : String, ∀ r : List Nat,
      read_le_u16R s = (.error e, r) → e = eofDesc) ∧
    isTruncatedHeader "malformed gzip header" = true ∧
    isTruncatedHeader eofDesc = true := by
  refine ⟨fun _ h => read_gzip_header_short h, ?_, ?_, ?_, rfl, rfl⟩
  · intro s e h
    unfold handle_fextra at h
    cases hu : read_le_u16R s with
    | mk res r =>
      rw [hu] at h
      cases res with
      | error e2 =>
        simp at h
        exact Or.inr (h ▸ read_le_u16R_error_eq hu)
      | ok xlen =>
        rcases fextraLoop_error_classify xlen 0 r e h with h2 | h2
        · exact Or.inl (by simp [isMalformedExtra, h2])
        · exact Or.inr h2
  · exact fun _ _ h => read_c_bytes_error_eq h
  · exact fun _ _ _ h => read_le_u16R_error_eq h

/-- Witness for C2: concrete instances of each failing read. -/
theorem C2_read_failures_truncated_witness :
    read_gzip_header [0x1f, 0x8b, 8, 0] = .error "malformed gzip header" ∧
      (isMalformedExtra eofDesc = true ∨ eofDesc = eofDesc) ∧
      eofDesc = eofDesc ∧ eofDesc = eofDesc :=
  ⟨C2_read_failures_truncated.1 [0x1f, 0x8b, 8, 0] (by decide),
   C2_read_failures_truncated.2.1 [9] eofDesc (by rfl),
   C2_read_failures_truncated.2.2.1 [] eofDesc (by rfl),
   C2_read_failures_truncated.2.2.2.1 [7] eofDesc [] (by rfl)⟩

lemma drop_cons4 :
    ∀ (k t1 t2 l1 l2 : Nat) (r : List Nat), ¬k < 4 →
      List.drop k (t1 :: t2 :: l1 :: l2 :: r) = List.drop (k - 4) r := by
  intro k t1 t2 l1 l2 r hk
  rcases k with _ | ⟨_ | ⟨_ | ⟨_ | k⟩⟩⟩
  · omega
  · omega
  · omega
  · omega
  · simp only [List.drop_succ_cons]
    congr 1

lemma fextraLoop_malformed_iff :
    ∀ xlen c s, fextraLoop xlen c s = .error "malformed FEXTRA" ↔
      fextraMalformedCause xlen s = true := by
  intro xlen
  induction xlen using Nat.strong_induction_on with
  | _ xlen ih =>
    intro c s
    rcases s with _ | ⟨t1, _ | ⟨t2, _ | ⟨l1, _ | ⟨l2, r⟩⟩⟩⟩
    · unfold fextraLoop fextraMalformedCause
      by_cases hx0 : xlen = 0 <;> by_cases hx4 : xlen < 4 <;>
        simp [hx0, hx4, read_byteR, eofDesc]
    · unfold fextraLoop fextraMalformedCause
      by_cases hx0 : xlen = 0 <;> by_cases hx4 : xlen < 4 <;>
        simp [hx0, hx4, read_byteR, eofDesc]
    · unfold fextraLoop fextraMalformedCause
      by_cases hx0 : xlen = 0 <;> by_cases hx4 : xlen < 4 <;>
        simp [hx0, hx4, read_byteR, read_le_u16R, eofDesc]
    · unfold fextraLoop fextraMalformedCause
      by_cases hx0 : xlen = 0 <;> by_cases hx4 : xlen < 4 <;>
        simp [hx0, hx4, read_byteR, read_le_u16R, eofDesc]
    · by_cases hx0 : xlen = 0
      · unfold fextraLoop fextraMalformedCause
        simp [hx0]
      by_cases hx4 : xlen < 4
      · unfold fextraLoop fextraMalformedCause
        simp [hx0, hx4]
      by_cases hlen : xlen - 4 < l1 + 256 * l2
      · unfold fextraLoop fextraMalformedCause
        simp [hx0, hx4, hlen, read_byteR, read_le_u16R]
      by_cases hre : l1 + 256 * l2 ≤ r.length
      · unfold fextraLoop fextraMalformedCause
        simp [hx0, hx4, hlen, hre, read_byteR, read_le_u16R, read_exact]
        exact ih (xlen - 4 - (l1 + 256 * l2)) (by omega) (c + 1) (r.drop (l1 + 256 * l2))
      · unfold fextraLoop fextraMalformedCause
        simp [hx0, hx4, hlen, hre, read_byteR, read_le_u16R, read_exact, eofDesc]

/-- C4: the subfield loop reports MalformedExtra exactly when, after
the successfully parsed subfields, either (a) the remaining budget
satisfies 0 < xlen < 4 at the top of an iteration, or (b) the declared
sublen exceeds the budget remaining after the 4-byte tag+length
decrement; both general sufficiency directions are stated over
arbitrary states, exactness is the equivalence with
`fextraMalformedCause`, and the two concrete scenarios (outer xlen=3;
xlen=10 with a first sublen of 20) fail with MalformedExtra. -/
theorem C4_malformed_extra_exactly :
    (∀ xlen c : Nat, ∀ s : List Nat, 0 < xlen → xlen < 4 →
      fextraLoop xlen c s = .error "malformed FEXTRA") ∧
    (∀ xlen c t1 t2 l1 l2 : Nat, ∀ rest : List Nat, ¬xlen = 0 → ¬xlen < 4 →
      xlen - 4 < l1 + 256 * l2 →
      fextraLoop xlen c (t1 :: t2 :: l1 :: l2 :: rest) = .error "malformed FEXTRA") ∧
    (∀ xlen c : Nat, ∀ s : List Nat,
      fextraLoop xlen c s = .error "malformed FEXTRA" ↔
        fextraMalformedCause xlen s = true) ∧
    handle_fextra [3, 0, 9, 9, 9] = .error "malformed FEXTRA" ∧
    handle_fextra (10 :: 0 :: 7 :: 7 :: 20 :: 0 :: List.replicate 30 9) =
      .error "malformed FEXTRA" := by
  refine ⟨?_, ?_, fextraLoop_malformed_iff, ?_, ?_⟩
  · intro xlen c s h0 h4
    have hx0 : ¬xlen = 0 := by omega
    unfold fextraLoop
    simp [hx0, h4]
  · intro xlen c t1 t2 l1 l2 rest h0 h4 hlen
    unfold fextraLoop
    simp [h0, h4, hlen, read_byteR, read_le_u16R]
  · simp [handle_fextra, read_le_u16R, read_byteR, fextraLoop]
  · simp [handle_fextra, read_le_u16R, read_byteR, fextraLoop, read_exact]

/-- Witness for C4: the sufficiency directions and the equivalence at
concrete loop states. -/
theorem C4_malformed_extra_exactly_witness :
    fextraLoop 3 0 [] = .error "malformed FEXTRA" ∧
      fextraLoop 10 0 [7, 7, 20, 0] = .error "malformed FEXTRA" ∧
      (fextraLoop 6 0 [1, 2, 9, 0] = .error "malformed FEXTRA" ↔
        fextraMalformedCause 6 [1, 2, 9, 0] = true) :=
  ⟨C4_malformed_extra_exactly.1 3 0 [] (by decide) (by decide),
   C4_malformed_extra_exactly.2.1 10 0 7 7 20 0 [] (by decide) (by decide) (by decide),
   C4_malformed_extra_exactly.2.2.1 6 0 [1, 2, 9, 0]⟩

lemma fextraLoopFuel_eq :
    ∀ fuel xlen c s, xlen < fuel →
      fextraLoopFuel fuel xlen c s = some (fextraLoop xlen c s) := by
  intro fuel
  induction fuel with
  | zero => intro xlen c s h; omega
  | succ n ihf =>
    intro xlen c s h
    by_cases hx0 : xlen = 0
    · unfold fextraLoopFuel fextraLoop
      simp [hx0]
    by_cases hx4 : xlen < 4
    · unfold fextraLoopFuel fextraLoop
      simp [hx0, hx4]
    rcases s with _ | ⟨t1, _ | ⟨t2, _ | ⟨l1, _ | ⟨l2, r⟩⟩⟩⟩
    · unfold fextraLoopFuel fextraLoop
      simp [hx0, hx4, read_byteR]
    · unfold fextraLoopFuel fextraLoop
      simp [hx0, hx4, read_byteR]
    · unfold fextraLoopFuel fextraLoop
      simp [hx0, hx4, read_byteR, read_le_u16R]
    · unfold fextraLoopFuel fextraLoop
      simp [hx0, hx4, read_byteR, read_le_u16R]
    · by_cases hlen : xlen - 4 < l1 + 256 * l2
      · unfold fextraLoopFuel fextraLoop
        simp [hx0, hx4, hlen, read_byteR, read_le_u16R]
      by_cases hre : l1 + 256 * l2 ≤ r.length
      · unfold fextraLoopFuel fextraLoop
        simp [hx0, hx4, hlen, hre, read_byteR, read_le_u16R, read_exact]
        exact ihf _ _ _ (by omega)
      · unfold fextraLoopFuel fextraLoop
        simp [hx0, hx4, hlen, hre, read_byteR, read_le_u16R, read_exact]

lemma fextraLoop_ok_consumes :
    ∀ xlen c s cnt rest, fextraLoop xlen c s = .ok (cnt, rest) →
      xlen ≤ s.length ∧ rest = List.drop xlen s := by
  intro xlen
  induction xlen using Nat.strong_induction_on with
  | _ xlen ih =>
    intro c s cnt rest h
    by_cases hx0 : xlen = 0
    · unfold fextraLoop at h
      simp [hx0] at h
      subst hx0
      exact ⟨Nat.zero_le _, by simp [h.2]⟩
    by_cases hx4 : xlen < 4
    · unfold fextraLoop at h
      simp [hx0, hx4] at h
    rcases s with _ | ⟨t1, _ | ⟨t2, _ | ⟨l1, _ | ⟨l2, r⟩⟩⟩⟩
    · unfold fextraLoop at h
      simp [hx0, hx4, read_byteR] at h
    · unfold fextraLoop at h
      simp [hx0, hx4, read_byteR] at h
    · unfold fextraLoop at h
      simp [hx0, hx4, read_byteR, read_le_u16R] at h
    · unfold fextraLoop at h
      simp [hx0, hx4, read_byteR, read_le_u16R] at h
    · by_cases hlen : xlen - 4 < l1 + 256 * l2
      · unfold fextraLoop at h
        simp [hx0, hx4, hlen, read_byteR, read_le_u16R] at h
      by_cases hre : l1 + 256 * l2 ≤ r.length
      · unfold fextraLoop at h
        simp [hx0, hx4, hlen, hre, read_byteR, read_le_u16R, read_exact] at h
        obtain ⟨hle, hdrop⟩ := ih (xlen - 4 - (l1 + 256 * l2)) (by omega) _ _ _ _ h
        rw [List.length_drop] at hle
        refine ⟨by simp only [List.length_cons]; omega, ?_⟩
        rw [hdrop, List.drop_drop, drop_cons4 xlen t1 t2 l1 l2 r hx4]
        congr 1
        omega
      · unfold fextraLoop at h
        simp [hx0, hx4, hlen, hre, read_byteR, read_le_u16R, read_exact] at h

/-- C5: the subfield loop terminates on every input: the fuel-bounded
variant agrees with it whenever the fuel exceeds the remaining budget
(each iteration strictly shrinks the budget, so xlen+1 iterations
always suffice), and a successful run consumed exactly the declared
xlen bytes, i.e. the loop exits with the budget at exactly 0. -/
theorem C5_loop_terminates :
    (∀ fuel xlen c : Nat, ∀ s : List Nat, xlen < fuel →
      fextraLoopFuel fuel xlen c s = some (fextraLoop xlen c s)) ∧
    (∀ xlen c : Nat, ∀ s : List Nat, ∀ cnt : Nat, ∀ rest : List Nat,
      fextraLoop xlen c s = .ok (cnt, rest) →
      xlen ≤ s.length ∧ rest = List.drop xlen s) :=
  ⟨fextraLoopFuel_eq, fextraLoop_ok_consumes⟩

/-- Witness for C5: the fuel bound and the exact-consumption property
at concrete loop states. -/
theorem C5_loop_terminates_witness :
    fextraLoopFuel 5 4 0 [7, 7, 0, 0] = some (fextraLoop 4 0 [7, 7, 0, 0]) ∧
      (0 ≤ ([9] : List Nat).length ∧ ([9] : List Nat) = List.drop 0 [9]) :=
  ⟨C5_loop_terminates.1 5 4 0 [7, 7, 0, 0] (by decide),
   C5_loop_terminates.2 0 3 [9] 3 [9] (by simp [fextraLoop])⟩

lemma read_c_bytes_no_zero :
    ∀ bs rest : List Nat, (∀ b ∈ bs, b ≠ 0) →
      read_c_bytes (bs ++ 0 :: rest) = .ok (bs, rest) := by
  intro bs
  induction bs with
  | nil => intro rest _; rfl
  | cons b t ih =>
    intro rest hb
    have hb0 : b ≠ 0 := hb b (List.mem_cons_self b t)
    rcases b with _ | b
    · exact absurd rfl hb0
    · simp only [List.cons_append, read_c_bytes, List.append_eq]
      rw [ih rest fun x hx => hb x (List.mem_cons_of_mem _ hx)]

/-- C7: the null-terminated text reader collects bytes up to the first
zero byte, consumes the terminator without including it, decodes the
bytes as UTF-8 (failing with InvalidText when they are not valid
UTF-8), yields the empty string (not absence) when the terminator is
first; [0x61,0x62,0x00] yields "ab", [0xFF,0x00] fails with
InvalidText, and an FNAME stream whose name field is just a terminator
decodes to some "". -/
theorem C7_null_terminated_text :
    (∀ bs rest : List Nat, (∀ b ∈ bs, b ≠ 0) →
      read_c_bytes (bs ++ 0 :: rest) = .ok (bs, rest)) ∧
    (∀ bs rest : List Nat, ∀ cs : List Char, (∀ b ∈ bs, b ≠ 0) →
      utf8Decode bs = some cs →
      read_c_utf8_str (bs ++ 0 :: rest) = .ok (String.mk cs, rest)) ∧
    (∀ bs rest : List Nat, (∀ b ∈ bs, b ≠ 0) →
      utf8Decode bs = none →
      read_c_utf8_str (bs ++ 0 :: rest) = .error "expected utf8 string") ∧
    (∀ rest : List Nat, read_c_utf8_str (0 :: rest) = .ok ("", rest)) ∧
    read_c_utf8_str [0x61, 0x62, 0x00] = .ok ("ab", []) ∧
    (read_c_utf8_str [0xFF, 0x00] = .error "expected utf8 string" ∧
      isInvalidText "expected utf8 string" = true) ∧
    read_gzip_header [0x1f, 0x8b, 8, 0x08, 0, 0, 0, 0, 0, 3, 0] =
      .ok ({ method := 8, flg := 8, mtime := 0, xfl := 0, os := 3,
             fextra_count := 0, fname := some "", fcomment := none,
             fhcrc := none }, []) := by
  refine ⟨read_c_bytes_no_zero, ?_, ?_, fun rest => rfl, rfl, ⟨rfl, rfl⟩, rfl⟩
  · intro bs rest cs hb hdec
    simp [read_c_utf8_str, read_c_bytes_no_zero bs rest hb, hdec]
  · intro bs rest hb hdec
    simp [read_c_utf8_str, read_c_bytes_no_zero bs rest hb, hdec]

/-- Witness for C7: the general clauses at concrete byte lists. -/
theorem C7_null_terminated_text_witness :
    read_c_bytes ([1] ++ 0 :: []) = .ok ([1], []) ∧
      read_c_utf8_str ([0x61] ++ 0 :: []) = .ok (String.mk [Char.ofNat 0x61], []) ∧
      read_c_utf8_str ([0xFF] ++ 0 :: []) = .error "expected utf8 string" :=
  ⟨C7_null_terminated_text.1 [1] [] (by decide),
   C7_null_terminated_text.2.1 [0x61] [] [Char.ofNat 0x61] (by decide) (by rfl),
   C7_null_terminated_text.2.2.1 [0xFF] [] (by decide) (by rfl)⟩

/-- C8: on every successful decode, presence of the optional fields is
determined by the returned flags byte: fextra_count is 0 when the
FEXTRA bit is clear, and fname, fcomment, fhcrc are present exactly
when FNAME, FCOMMENT, FHCRC respectively are set. -/
theorem C8_flag_presence :
    ∀ s : List Nat, ∀ hd : GzipHeader, ∀ rest : List Nat,
      read_gzip_header s = .ok (hd, rest) →
      (hd.flg &&& FEXTRA = 0 → hd.fextra_count = 0) ∧
      (hd.fname.isSome = (hd.flg &&& FNAME != 0)) ∧
      (hd.fcomment.isSome = (hd.flg &&& FCOMMENT != 0)) ∧
      (hd.fhcrc.isSome = (hd.flg &&& FHCRC != 0)) := by
  intro s hd rest h
  rcases s with _ | ⟨b1, s⟩
  · rw [read_gzip_header_short (by simp)] at h; exact Except.noConfusion h
  rcases s with _ | ⟨b2, s⟩
  · rw [read_gzip_header_short (by simp)] at h; exact Except.noConfusion h
  rcases s with _ | ⟨b3, s⟩
  · rw [read_gzip_header_short (by simp)] at h; exact Except.noConfusion h
  rcases s with _ | ⟨b4, s⟩
  · rw [read_gzip_header_short (by simp)] at h; exact Except.noConfusion h
  rcases s with _ | ⟨b5, s⟩
  · rw [read_gzip_header_short (by simp)] at h; exact Except.noConfusion h
  rcases s with _ | ⟨b6, s⟩
  · rw [read_gzip_header_short (by simp)] at h; exact Except.noConfusion h
  rcases s with _ | ⟨b7, s⟩
  · rw [read_gzip_header_short (by simp)] at h; exact Except.noConfusion h
  rcases s with _ | ⟨b8, s⟩
  · rw [read_gzip_header_short (by simp)] at h; exact Except.noConfusion h
  rcases s with _ | ⟨b9, s⟩
  · rw [read_gzip_header_short (by simp)] at h; exact Except.noConfusion h
  rcases s with _ | ⟨b10, r⟩
  · rw [read_gzip_header_short (by simp)] at h; exact Except.noConfusion h
  simp only [read_gzip_header, read_byteR, read_le_u32R] at h
  by_cases hmg : (b1 != 0x1f || b2 != 0x8b) = true
  · rw [if_pos hmg] at h; exact Except.noConfusion h
  rw [if_neg hmg] at h
  split at h
  next e heqF => exact Except.noConfusion h
  next cnt s8 heqF =>
  split at h
  next e heqN => exact Except.noConfusion h
  next nm s9 heqN =>
  split at h
  next e heqC => exact Except.noConfusion h
  next cm s10 heqC =>
  split at h
  next e heqH => exact Except.noConfusion h
  next hc s11 heqH =>
  rw [Except.ok.injEq, Prod.mk.injEq] at h
  obtain ⟨hrec, -⟩ := h
  subst hrec
  refine ⟨fun hclear => ?_, ?_, ?_, ?_⟩
  · have hc0 : (b4 &&& FEXTRA != 0) = false := by
      simp only [bne_eq_false_iff_eq]
      exact hclear
    rw [hc0] at heqF
    simp at heqF
    exact heqF.1.symm
  · by_cases hb : (b4 &&& FNAME != 0) = true
    · rw [if_pos hb] at heqN
      rcases hstr : read_c_utf8_str s8 with e | ⟨str, r9⟩
      · rw [hstr] at heqN; exact Except.noConfusion heqN
      · rw [hstr] at heqN
        simp at heqN
        obtain ⟨h1, -⟩ := heqN
        subst h1
        simp [hb]
    · rw [if_neg hb] at heqN
      simp at heqN
      obtain ⟨h1, -⟩ := heqN
      subst h1
      have hb2 : (b4 &&& FNAME != 0) = false := by simpa using hb
      simp [hb2]
  · by_cases hb : (b4 &&& FCOMMENT != 0) = true
    · rw [if_pos hb] at heqC
      rcases hstr : read_c_utf8_str s9 with e | ⟨str, r10⟩
      · rw [hstr] at heqC; exact Except.noConfusion heqC
      · rw [hstr] at heqC
        simp at heqC
        obtain ⟨h1, -⟩ := heqC
        subst h1
        simp [hb]
    · rw [if_neg hb] at heqC
      simp at heqC
      obtain ⟨h1, -⟩ := heqC
      subst h1
      have hb2 : (b4 &&& FCOMMENT != 0) = false := by simpa using hb
      simp [hb2]
  · by_cases hb : (b4 &&& FHCRC != 0) = true
    · rw [if_pos hb] at heqH
      rcases hu : read_le_u16R s10 with ⟨e | v, r11⟩
      · rw [hu] at heqH; exact Except.noConfusion heqH
      · rw [hu] at heqH
        simp at heqH
        obtain ⟨h1, -⟩ := heqH
        subst h1
        simp [hb]
    · rw [if_neg hb] at heqH
      simp at heqH
      obtain ⟨h1, -⟩ := heqH
      subst h1
      have hb2 : (b4 &&& FHCRC != 0) = false := by simpa using hb
      simp [hb2]

/-- Witness for C8: the invariant instantiated on a concrete
successful decode with flags = FTEXT only. -/
theorem C8_flag_presence_witness :
    ((1 : Nat) &&& FEXTRA = 0 → (0 : Nat) = 0) ∧
      ((none : Option String).isSome = ((1 : Nat) &&& FNAME != 0)) ∧
      ((none : Option String).isSome = ((1 : Nat) &&& FCOMMENT != 0)) ∧
      ((none : Option Nat).isSome = ((1 : Nat) &&& FHCRC != 0)) := by
  exact C8_flag_presence [0x1f, 0x8b, 8, 1, 9, 0, 0, 0, 2, 3]
    { method := 8, flg := 1, mtime := 9, xfl := 2, os := 3, fextra_count := 0,
      fname := none, fcomment := none, fhcrc := none } [] rfl

end Gunz

